import Mathlib

/-!
Verification of the bank-statement ingestion core of the UTX personal finance
tracker, as a shallow embedding in Lean 4.

The embedded code comes from the statement-parser module (NayaPay block
parser, CSV parser, sanitizer, validator, import-format converter), the HBL
line parser, the Groq description cleaner, and the import component's
enhancement fallback.

JavaScript semantics notes that matter throughout:

* `String.prototype.replaceAll` throws a `TypeError` whenever its first
  argument is a regular expression that does not carry the `g` flag
  (ECMA-262, String.prototype.replaceAll, step 2.b.iii: the check happens
  before any matching, so it throws even when the receiver would contain no
  match).  The NayaPay/CSV module passes flagless regex literals to
  `replaceAll` in `extractFee`, `extractAmount`, `buildDescription`,
  `cleanNayaPayDescription`, `sanitizeDescription` and `parseCSV`; each of
  those call sites is embedded as `Except.error JsError.replaceAllNonGlobal`.
  The HBL module only calls `replaceAll` with a string argument or with
  `g`-flagged regexes, so its embedding is total.
* `string.replace(pattern, r)` with a `g`-flagged pattern replaces every
  match and does not throw; `RegExp.exec` with a flagless literal matches
  leftmost-first with backtracking.
* Amounts are JavaScript numbers produced by `Number.parseFloat` on short
  decimal strings; they are modelled exactly by `JsNum`, a normalized
  decimal `mant / 10 ^ exp`.  Every comparison appearing in the embedded
  code is against `0` or between such decimals, so exact decimals and
  binary doubles agree on all of them.
-/

deriving instance DecidableEq for Except

/- ═══════════════ JS string primitives ═══════════════ -/

/-- The whitespace characters recognised by the JS `\s` class and `trim`
(restricted to the code points that can occur in extracted statement text). -/
def jsSpace (c : Char) : Bool :=
  c == ' ' || c == '\t' || c == '\n' || c == '\r' || c == '\x0b' || c == '\x0c'

/-- `listStartsWith cs pre` : `cs` begins with `pre`. -/
def listStartsWith : List Char → List Char → Bool
  | _, [] => true
  | [], _ :: _ => false
  | c :: cs, d :: ds => c == d && listStartsWith cs ds

/-- JS `String.prototype.includes` on character lists. -/
def listHasSub : List Char → List Char → Bool
  | [], sub => sub.isEmpty
  | c :: cs, sub => listStartsWith (c :: cs) sub || listHasSub cs sub

/-- JS `haystack.includes(needle)`. -/
def strHasSub (haystack needle : String) : Bool :=
  listHasSub haystack.data needle.data

/-- JS `String.prototype.toLowerCase` (ASCII range; all fingerprint phrases
and keywords compared in the source are ASCII). -/
def jsToLower (s : String) : String :=
  String.mk (s.data.map Char.toLower)

/-- JS `String.prototype.trim`. -/
def jsTrim (s : String) : String :=
  String.mk (((s.data.dropWhile jsSpace).reverse.dropWhile jsSpace).reverse)

/-- Helper for `jsSplitChar`: accumulates the current field (reversed). -/
def jsSplitCharAux (sep : Char) : List Char → List Char → List String
  | [], acc => [String.mk acc.reverse]
  | c :: cs, acc =>
    if c == sep then String.mk acc.reverse :: jsSplitCharAux sep cs []
    else jsSplitCharAux sep cs (c :: acc)

/-- JS `String.prototype.split` with a one-character separator: empty fields
are preserved and `"".split(sep)` is `[""]`. -/
def jsSplitChar (sep : Char) (s : String) : List String :=
  jsSplitCharAux sep s.data []

/-- Numeric value of a digit string (fold base 10). -/
def digitsToNat (cs : List Char) : Nat :=
  cs.foldl (fun acc c => 10 * acc + (c.toNat - 48)) 0

/- ═══════════════ Exact JS numbers ═══════════════ -/

/-- An exact decimal `mant / 10 ^ exp`, kept normalized (`mant` is not a
multiple of 10 unless `exp = 0`) so structural equality coincides with
numeric equality.  This models the JavaScript numbers flowing through the
parsers: they all arise from `parseFloat` on decimal strings. -/
structure JsNum where
  mant : Int
  exp : Nat
  isNorm : exp ≠ 0 → mant % 10 ≠ 0

instance : DecidableEq JsNum := fun a b =>
  if h : a.mant = b.mant ∧ a.exp = b.exp then
    isTrue (by cases a; cases b; cases h.1; cases h.2; rfl)
  else
    isFalse (fun he => h (by cases he; exact ⟨rfl, rfl⟩))

def JsNum.zero : JsNum := ⟨0, 0, by simp⟩

def JsNum.ofInt (n : Int) : JsNum := ⟨n, 0, by simp⟩

/-- Normalizing constructor for `mant / 10 ^ exp`. -/
def JsNum.normAux (m : Int) : Nat → JsNum
  | 0 => ⟨m, 0, by simp⟩
  | e + 1 =>
    if h : m % 10 = 0 then JsNum.normAux (m / 10) e
    else ⟨m, e + 1, fun _ => h⟩

/-- `a < b` on exact decimals (cross-multiplied). -/
def JsNum.lt (a b : JsNum) : Prop :=
  a.mant * 10 ^ b.exp < b.mant * 10 ^ a.exp

/-- `a ≤ b` on exact decimals (cross-multiplied). -/
def JsNum.le (a b : JsNum) : Prop :=
  a.mant * 10 ^ b.exp ≤ b.mant * 10 ^ a.exp

instance (a b : JsNum) : Decidable (JsNum.lt a b) :=
  inferInstanceAs (Decidable (a.mant * 10 ^ b.exp < b.mant * 10 ^ a.exp))

instance (a b : JsNum) : Decidable (JsNum.le a b) :=
  inferInstanceAs (Decidable (a.mant * 10 ^ b.exp ≤ b.mant * 10 ^ a.exp))

/-- JS unary minus. -/
def JsNum.neg (a : JsNum) : JsNum :=
  ⟨-a.mant, a.exp, fun h => by have := a.isNorm h; omega⟩

/-- JS subtraction (exact on decimals). -/
def JsNum.sub (a b : JsNum) : JsNum :=
  JsNum.normAux (a.mant * 10 ^ b.exp - b.mant * 10 ^ a.exp) (a.exp + b.exp)

/-- JS `Math.max`. -/
def JsNum.max (a b : JsNum) : JsNum :=
  if JsNum.le a b then b else a

/-- The decimal `(intPart + fracPart / 10 ^ |fracPart|)` produced by
`Number.parseFloat` on `intPart ++ "." ++ fracPart` (both digit strings). -/
def JsNum.ofDecimalDigits (intPart fracPart : List Char) : JsNum :=
  JsNum.normAux (digitsToNat intPart * 10 ^ fracPart.length + digitsToNat fracPart) fracPart.length

/- ═══════════════ Data model and errors ═══════════════ -/

/-- `ParsedTransaction` from the parser module (field `date` is intended to
be ISO `YYYY-MM-DD`). -/
structure ParsedTransaction where
  date : String
  debit : JsNum
  credit : JsNum
  description : String
  originalDate : String
deriving DecidableEq

/-- The `type` discriminator of an `ImportTransaction`. -/
inductive TxType
  | expense
  | income
deriving DecidableEq

/-- `ImportTransaction` from the parser module. -/
structure ImportTransaction where
  date : String
  amount : JsNum
  type : TxType
  description : String
  category_id : Option String
deriving DecidableEq

/-- The exceptions the embedded code can throw.  `replaceAllNonGlobal` is
the `TypeError` raised by `String.prototype.replaceAll` when handed a regex
without the `g` flag; the other constructors tag the `throw new Error(...)`
sites of the validator and of the Groq cleaner. -/
inductive JsError
  | replaceAllNonGlobal
  | noTransactions (bank : String)
  | tooManyInvalid (invalid total : Nat)
  | groqMissingContent
  | groqNoJsonMatch
  | groqNotArray
  | groqLengthMismatch (got expected : Nat)
  | groqApi (inner : JsError)
deriving DecidableEq

/- ═══════════════ Sanitizer (part_003 lines 92-136) ═══════════════ -/

/-- `sanitizeDescription`.  For the empty string the guard
`!description` returns `'Transaction'` immediately.  For any non-empty
input, the loop of `pattern.replace` calls over
`PROMPT_INJECTION_PATTERNS` completes normally (every pattern in that list
carries the `g` flag), and control then reaches
`sanitized.replaceAll(/\s+/, ' ')`: `/\s+/` has no `g` flag, so
`replaceAll` throws a `TypeError` before looking at the string at all. -/
def sanitizeDescription (description : String) : Except JsError String :=
  if description = "" then .ok "Transaction"
  else .error .replaceAllNonGlobal

/- ═══════════════ NayaPay date extraction (part_003 lines 241-249) ═══════════════ -/

/-- The twelve month abbreviations of the date regex alternation. -/
def monthNames : List String :=
  ["Jan", "Feb", "Mar", "Apr", "May", "Jun", "Jul", "Aug", "Sep", "Oct", "Nov", "Dec"]

/-- Match one month-name alternative at the head of `cs`, returning the
consumed characters and the rest.  The twelve alternatives are distinct
three-character strings, so alternation order cannot matter. -/
def matchMonthAt (cs : List Char) : Option (List Char × List Char) :=
  monthNames.findSome? (fun m =>
    if listStartsWith cs m.data then some (m.data, cs.drop 3) else none)

/-- Match `\s+(Jan|...|Dec)\s+202\d` at the head of `cs`, returning the
consumed characters.  `\s+` is greedy and the following token starts with a
non-space character, so maximal munch agrees with the regex. -/
def matchDateTail (cs : List Char) : Option (List Char) :=
  let sp1 := cs.takeWhile jsSpace
  if sp1.isEmpty then none
  else
    match matchMonthAt (cs.drop sp1.length) with
    | none => none
    | some (m, r2) =>
      let sp2 := r2.takeWhile jsSpace
      if sp2.isEmpty then none
      else
        match r2.drop sp2.length with
        | '2' :: '0' :: '2' :: d :: _ =>
          if d.isDigit then some (sp1 ++ m ++ sp2 ++ ['2', '0', '2', d]) else none
        | _ => none

/-- Match `\d{1,2}\s+(Jan|...)\s+202\d` at the head of `cs`.  The day is
matched greedily (two digits when possible); when the second character is a
digit the one-digit alternative cannot succeed either (its `\s+` would have
to match that digit), so no further backtracking is needed. -/
def matchDateAt : List Char → Option (List Char)
  | [] => none
  | c1 :: rest1 =>
    if c1.isDigit then
      match rest1 with
      | [] => none
      | c2 :: rest2 =>
        if c2.isDigit then
          match matchDateTail rest2 with
          | some t => some (c1 :: c2 :: t)
          | none => none
        else
          match matchDateTail rest1 with
          | some t => some (c1 :: t)
          | none => none
    else none

/-- Leftmost match of the date regex in a line (`RegExp.exec`). -/
def findDateIn : List Char → Option (List Char)
  | [] => none
  | c :: rest =>
    match matchDateAt (c :: rest) with
    | some m => some m
    | none => findDateIn rest

/-- `extractDate`: the first line containing a
`\d{1,2}\s+(Jan|...|Dec)\s+202\d` match yields that match; otherwise `''`. -/
def extractDate : List String → String
  | [] => ""
  | line :: rest =>
    match findDateIn line.data with
    | some m => String.mk m
    | none => extractDate rest

/- ═══════════════ NayaPay fee and amount extraction (part_003 lines 251-271) ═══════════════ -/

/-- Does `/Fees and Government Taxes Rs\.\s*([\d,]+\.?\d*)/` match at the
head of `cs`?  The capture `[\d,]+` needs at least one digit-or-comma after
the optional whitespace. -/
def feeMatchHere (cs : List Char) : Bool :=
  listStartsWith cs "Fees and Government Taxes Rs.".data &&
    (match (cs.drop 29).dropWhile jsSpace with
     | d :: _ => d.isDigit || d == ','
     | [] => false)

/-- Does the fee regex match anywhere in the line? -/
def lineHasFee : List Char → Bool
  | [] => false
  | c :: rest => feeMatchHere (c :: rest) || lineHasFee rest

/-- `extractFee`.  On the first line where the fee regex matches, the source
evaluates `Number.parseFloat(feeMatch[1].replaceAll(/,/, ''))`; `/,/` has no
`g` flag, so `replaceAll` throws a `TypeError`.  With no match on any line
the function returns 0. -/
def extractFee : List String → Except JsError JsNum
  | [] => .ok JsNum.zero
  | line :: rest =>
    if lineHasFee line.data then .error .replaceAllNonGlobal
    else extractFee rest

/-- Does `/[-+]?Rs\.\s+([\d,]+\.?\d*)/` match at the head of `cs`?  The
optional sign never affects whether a match exists, and `[\d,]+` needs one
digit-or-comma after at least one whitespace character. -/
def amountMatchHere (cs : List Char) : Bool :=
  listStartsWith cs "Rs.".data &&
    (let r := cs.drop 3
     let sp := r.takeWhile jsSpace
     !sp.isEmpty &&
       (match r.drop sp.length with
        | d :: _ => d.isDigit || d == ','
        | [] => false))

/-- Does the amount regex match anywhere in the line? -/
def lineHasAmount : List Char → Bool
  | [] => false
  | c :: rest => amountMatchHere (c :: rest) || lineHasAmount rest

/-- `extractAmount`.  On the first line where the amount regex matches, the
source evaluates `Number.parseFloat(amountMatch[1].replaceAll(/,/, ''))`;
`/,/` has no `g` flag, so `replaceAll` throws a `TypeError`.  With no match
on any line the function returns 0. -/
def extractAmount : List String → Except JsError JsNum
  | [] => .ok JsNum.zero
  | line :: rest =>
    if lineHasAmount line.data then .error .replaceAllNonGlobal
    else extractAmount rest

/- ═══════════════ NayaPay description noise filter (part_003 lines 273-314) ═══════════════ -/

/-- `^LIT\d+$` matchers (`United Bank-`, `Visa xxxx`, `USD `, ...). -/
def litThenDigits (lit : String) (cs : List Char) : Bool :=
  listStartsWith cs lit.data &&
    (let r := cs.drop lit.data.length
     !r.isEmpty && r.all Char.isDigit)

/-- `^\d{1,2}:\d{2}\s+(AM|PM)$`: the hour run must have length 1 or 2 and be
followed by `:` (a longer run can never match, since `\d{1,2}` is capped at
two and the next regex token is the literal colon), then exactly two digits,
whitespace and a final `AM`/`PM`. -/
def matchTimeLine (cs : List Char) : Bool :=
  let ds := cs.takeWhile Char.isDigit
  (ds.length == 1 || ds.length == 2) &&
    (match cs.drop ds.length with
     | ':' :: a :: b :: r2 =>
       a.isDigit && b.isDigit &&
         (let sp := r2.takeWhile jsSpace
          !sp.isEmpty &&
            (match r2.drop sp.length with
             | ['A', 'M'] => true
             | ['P', 'M'] => true
             | _ => false))
     | _ => false)

/-- `^Transaction ID [a-f0-9]+$` (lower-case hex only). -/
def matchTxnIdLine (cs : List Char) : Bool :=
  listStartsWith cs "Transaction ID ".data &&
    (let r := cs.drop 15
     !r.isEmpty && r.all (fun c => c.isDigit || decide ('a' ≤ c ∧ c ≤ 'f')))

/-- `^Bank.*-\d+$`: the line starts with `Bank` and its maximal trailing
digit run is non-empty and immediately preceded by `-`.  (The `\d+$` run can
only be the maximal trailing run, since the character before it must be the
literal `-`.) -/
def matchBankDashLine (cs : List Char) : Bool :=
  listStartsWith cs "Bank".data &&
    (let r := cs.reverse
     let ds := r.takeWhile Char.isDigit
     !ds.isEmpty &&
       (match r.drop ds.length with
        | '-' :: _ => true
        | _ => false))

/-- `^-?Rs\.\s+[\d,]+\.?\d*$` (the separate `^Rs\.\s+[\d,]+\.?\d*$` entry in
the source's skip list accepts exactly the sign-less instances of the same
lines, so a single matcher covers both).  After the greedy `[\d,]+` run the
remainder must be empty or a dot followed by digits only; no backtracking
can rescue other shapes because every split point inside the run leaves a
digit-or-comma where `\.?\d*$` would have to match. -/
def matchRsAmountLine (cs : List Char) : Bool :=
  let body := match cs with
    | '-' :: r => r
    | r => r
  listStartsWith body "Rs.".data &&
    (let r1 := body.drop 3
     let sp := r1.takeWhile jsSpace
     !sp.isEmpty &&
       (let r2 := r1.drop sp.length
        let dc := r2.takeWhile (fun c => c.isDigit || c == ',')
        !dc.isEmpty &&
          (match r2.drop dc.length with
           | [] => true
           | '.' :: r3 => r3.all Char.isDigit
           | _ => false)))

/-- The `skipPatterns` disjunction of `buildDescription` (the source lists
`^Meezan Bank-\d+$` twice; a duplicate disjunct would be redundant). -/
def shouldSkipLine (s : String) : Bool :=
  let cs := s.data
  (match matchDateAt cs with
   | some m => m.length == cs.length
   | none => false) ||
  matchTimeLine cs ||
  matchTxnIdLine cs ||
  litThenDigits "United Bank-" cs ||
  litThenDigits "Meezan Bank-" cs ||
  litThenDigits "easypaisa Bank-" cs ||
  matchBankDashLine cs ||
  litThenDigits "Visa xxxx" cs ||
  litThenDigits "USD " cs ||
  litThenDigits "EUR " cs ||
  litThenDigits "PKR " cs ||
  s == "Raast In" || s == "Raast Out" ||
  s == "Online Transaction" ||
  s == "Online" ||
  s == "IBFT In" || s == "IBFT Out" ||
  s == "Peer to Peer" ||
  s == "Mobile Top-up" ||
  s == "VISA Refund Transaction" ||
  s == "Reversal" ||
  s == "Service Charges Rs. 0" ||
  matchRsAmountLine cs ||
  listStartsWith cs "Fees and Government Taxes".data ||
  s == "Transaction"

/-- `buildDescription`.  A line that is skipped or empty contributes
nothing; the first surviving line calls `line.replaceAll` with the flagless
regex literal `-?Rs\.\s+[\d,]+\.?\d*`, which makes `replaceAll` throw a
`TypeError`.  Consequently, on the non-throwing path
every line was skipped and the accumulated `rawDescription` is `''`. -/
def buildDescription : List String → Except JsError String
  | [] => .ok ""
  | line :: rest =>
    if shouldSkipLine line || line.length == 0 then buildDescription rest
    else .error .replaceAllNonGlobal

/- ═══════════════ NayaPay description cleaning (part_003 lines 352-474) ═══════════════ -/

/-- `cleanNayaPayDescription`.  The guard returns `'Transaction'` when the
input (or its trim) is empty.  Otherwise control reaches
`cleaned.replaceAll(/\([^@]+@[^)]+\)/, '')`, whose flagless regex makes
`replaceAll` throw a `TypeError`; the rule chain
(`cleanMoneyReceived` ... `cleanFallback`) below that line is unreachable. -/
def cleanNayaPayDescription (desc : String) : Except JsError String :=
  if desc = "" || jsTrim desc = "" then .ok "Transaction"
  else .error .replaceAllNonGlobal

/- ═══════════════ NayaPay block parser (part_003 lines 316-350) ═══════════════ -/

/-- The `monthMap` lookup table. -/
def monthMap (m : String) : Option String :=
  if m == "Jan" then some "01" else if m == "Feb" then some "02"
  else if m == "Mar" then some "03" else if m == "Apr" then some "04"
  else if m == "May" then some "05" else if m == "Jun" then some "06"
  else if m == "Jul" then some "07" else if m == "Aug" then some "08"
  else if m == "Sep" then some "09" else if m == "Oct" then some "10"
  else if m == "Nov" then some "11" else if m == "Dec" then some "12"
  else none

/-- JS `day.padStart(2, '0')`. -/
def padStart2 (s : String) : String :=
  if s.length ≥ 2 then s else if s.length = 1 then "0" ++ s else "00"

/-- `parseNayaPayTransaction`: extract date, fee, amount and raw
description, net the fee into a negative amount, and emit a transaction
when a date and non-zero adjusted amount were found.  Index defaults inside
the emit branch mirror how an `undefined` JS array element would print in
the template literal; the branch is in fact unreachable (see
`nayapay_never_emits`), because a non-zero amount requires `extractFee` or
`extractAmount` to have matched — and then they already threw. -/
def parseNayaPayTransaction (lines : List String) : Except JsError (Option ParsedTransaction) :=
  let date := extractDate lines
  match extractFee lines with
  | .error e => .error e
  | .ok feeAmount =>
    match extractAmount lines with
    | .error e => .error e
    | .ok amount =>
      match buildDescription lines with
      | .error e => .error e
      | .ok rawDescription =>
        let adjustedAmount :=
          if JsNum.lt JsNum.zero feeAmount ∧ JsNum.lt amount JsNum.zero
          then JsNum.sub amount feeAmount else amount
        if date ≠ "" ∧ adjustedAmount ≠ JsNum.zero then
          let parts := jsSplitChar ' ' date
          let day := padStart2 (parts.getD 0 "undefined")
          let month := (monthMap (parts.getD 1 "undefined")).getD "undefined"
          let year := parts.getD 2 "undefined"
          match cleanNayaPayDescription rawDescription with
          | .error e => .error e
          | .ok cleaned =>
            match sanitizeDescription cleaned with
            | .error e => .error e
            | .ok desc =>
              .ok (some
                { originalDate := date
                  date := year ++ "-" ++ month ++ "-" ++ day
                  debit := if JsNum.lt adjustedAmount JsNum.zero
                           then JsNum.neg adjustedAmount else JsNum.zero
                  credit := JsNum.max adjustedAmount JsNum.zero
                  description := if desc == "" then "Transaction" else desc })
        else .ok none

/- ═══════════════ CSV parser (part_003 lines 732-758) ═══════════════ -/

/-- Core loop of `parseCSV` over the data rows (header already skipped).  A
row splitting into at least three comma-separated fields reaches
`descParts.join(',').replaceAll(/^"$/, '')`, whose flagless regex makes
`replaceAll` throw a `TypeError` regardless of the receiver; the
`parseFloat` calls for debit and credit on the lines above it complete but
their results are discarded by the exception, and the `transactions.push`
below is never reached.  Rows with fewer than three fields are skipped. -/
def parseCSVRows : List String → Except JsError (List ParsedTransaction)
  | [] => .ok []
  | row :: rest =>
    if 3 ≤ (jsSplitChar ',' row).length then .error .replaceAllNonGlobal
    else parseCSVRows rest

/-- `parseCSV`: trim, split on newlines, return `[]` when fewer than two
lines remain, otherwise process the rows after the header.
(`convertDateToISO` is only called from the unreachable `push`, so it needs
no embedding.) -/
def parseCSV (csvContent : String) : Except JsError (List ParsedTransaction) :=
  let lines := jsSplitChar '\n' (jsTrim csvContent)
  if lines.length < 2 then .ok []
  else parseCSVRows lines.tail

/- ═══════════════ HBL parser (part_005) ═══════════════ -/

/-- `^(\d{2}-\d{2}-\d{4})` at the start of the first line (no requirement on
what follows); returns the ten matched characters.  `\d{2}`/`\d{4}` are
fixed-width, so there is no backtracking. -/
def hblDateMatch (cs : List Char) : Option (List Char) :=
  match cs with
  | d1 :: d2 :: '-' :: d3 :: d4 :: '-' :: d5 :: d6 :: d7 :: d8 :: _ =>
    if d1.isDigit && d2.isDigit && d3.isDigit && d4.isDigit &&
       d5.isDigit && d6.isDigit && d7.isDigit && d8.isDigit
    then some [d1, d2, '-', d3, d4, '-', d5, d6, d7, d8]
    else none
  | _ => none

/-- The `handleTransactionLine` date test `^(\d{2}-\d{2}-\d{4})\s+`: a date
prefix followed by at least one whitespace character. -/
def hblDateLineTest (s : String) : Bool :=
  match hblDateMatch s.data with
  | none => false
  | some _ =>
    match s.data.drop 10 with
    | c :: _ => jsSpace c
    | [] => false

/-- Consume (on a reversed line) one `\s+[\d,]+\.\d+` unit: fractional
digits, the dot, the integer digit-or-comma run, then at least one space.
Maximal munch agrees with the regex because each run is delimited by a
token its own character class cannot match (see the module header). -/
def eatAmountRev (r : List Char) : Option (List Char) :=
  let frac := r.takeWhile Char.isDigit
  if frac.isEmpty then none
  else
    match r.drop frac.length with
    | '.' :: r2 =>
      let ip := r2.takeWhile (fun c => c.isDigit || c == ',')
      if ip.isEmpty then none
      else
        let r3 := r2.drop ip.length
        let sp := r3.takeWhile jsSpace
        if sp.isEmpty then none else some (r3.drop sp.length)
    | _ => none

/-- `/\s+([\d,]+\.\d+)\s+([\d,]+\.\d+)\s*$/` applied to the first line:
read from the end — optional trailing whitespace, the balance, mandatory
whitespace, the amount, mandatory whitespace before it.  Returns the
captured amount as (integer digits with commas, fractional digits). -/
def hblAmountMatch (cs : List Char) : Option (List Char × List Char) :=
  let r := cs.reverse.dropWhile jsSpace
  let balFrac := r.takeWhile Char.isDigit
  if balFrac.isEmpty then none
  else
    match r.drop balFrac.length with
    | '.' :: r2 =>
      let balInt := r2.takeWhile (fun c => c.isDigit || c == ',')
      if balInt.isEmpty then none
      else
        let r3 := r2.drop balInt.length
        let sp := r3.takeWhile jsSpace
        if sp.isEmpty then none
        else
          let r4 := r3.drop sp.length
          let amtFrac := r4.takeWhile Char.isDigit
          if amtFrac.isEmpty then none
          else
            match r4.drop amtFrac.length with
            | '.' :: r5 =>
              let amtInt := r5.takeWhile (fun c => c.isDigit || c == ',')
              if amtInt.isEmpty then none
              else
                match r5.drop amtInt.length with
                | c :: _ => if jsSpace c then some (amtInt.reverse, amtFrac.reverse) else none
                | [] => none
            | _ => none
    | _ => none

/-- `Number.parseFloat(capture.replaceAll(',', ''))` for a capture matching
`[\d,]+\.\d+`: strip the commas of the integer part and read the exact
decimal.  (`replaceAll` with a *string* first argument is legal JS.) -/
def hblParseAmount (ipart fpart : List Char) : JsNum :=
  JsNum.ofDecimalDigits (ipart.filter (fun c => !(c == ','))) fpart

/-- Helper for `removeAllSub`: when `skip` is positive we are inside a
match being deleted. -/
def removeAllSubGo (needle : List Char) : List Char → Nat → List Char
  | [], _ => []
  | _ :: rest, k + 1 => removeAllSubGo needle rest k
  | c :: rest, 0 =>
    if !needle.isEmpty && listStartsWith (c :: rest) needle
    then removeAllSubGo needle rest (needle.length - 1)
    else c :: removeAllSubGo needle rest 0

/-- JS `s.replaceAll(needle, '')` with a *string* needle: delete every
non-overlapping occurrence, scanning left to right.  (The only caller
passes the ten-character matched date, so the empty-needle case of JS never
arises; it is embedded as the identity.) -/
def removeAllSub (needle s : List Char) : List Char :=
  if needle.isEmpty then s else removeAllSubGo needle s 0

/-- `replaceAll` with `^\d{2}-\d{2}-\d{4}\s+` (`g` flag): without the `m`
flag `^` only matches at index 0, so at most the single leading occurrence
is deleted (the date and the whole whitespace run after it, `\s+` being
greedy). -/
def stripLeadingHblDate (cs : List Char) : List Char :=
  match hblDateMatch cs with
  | none => cs
  | some _ =>
    match cs.drop 10 with
    | c :: _ =>
      if jsSpace c then (cs.drop 10).dropWhile jsSpace else cs
    | [] => cs

/-- Consume `k` trailing `\s+[\d,]+\.\d+` units on the reversed line. -/
def eatAmountsRevK : Nat → List Char → Option (List Char)
  | 0, r => some r
  | k + 1, r =>
    match eatAmountRev r with
    | some r2 => eatAmountsRevK k r2
    | none => none

/-- `replaceAll` with `(\s+[\d,]+\.\d+){k}\s*$`-shaped end-anchored patterns
(`g` flag): being `$`-anchored they can delete at most one match, the
longest suffix of that shape (leftmost match start). -/
def stripTrailingAmounts (k : Nat) (cs : List Char) : List Char :=
  match eatAmountsRevK k (cs.reverse.dropWhile jsSpace) with
  | some r => r.reverse
  | none => cs

/-- Helper for `removeLongDigitRuns`: `run` is the current digit run,
reversed; it is dropped when it reaches length 16. -/
def emitDigitRun (run : List Char) : List Char :=
  if 16 ≤ run.length then [] else run.reverse

/-- JS `replaceAll(pattern, '')` for the `g`-flagged `\d{16,}`: every
maximal digit run of length at least 16 is deleted. -/
def removeLongDigitRunsGo : List Char → List Char → List Char
  | [], run => emitDigitRun run
  | c :: rest, run =>
    if c.isDigit then removeLongDigitRunsGo rest (c :: run)
    else emitDigitRun run ++ c :: removeLongDigitRunsGo rest []

def removeLongDigitRuns (cs : List Char) : List Char :=
  removeLongDigitRunsGo cs []

/-- JS `replaceAll` for the `g`-flagged `\s+` with replacement `' '`: every
maximal whitespace run becomes a single space. -/
def collapseSpacesGo : List Char → Bool → List Char
  | [], _ => []
  | c :: rest, prevSpace =>
    if jsSpace c then
      if prevSpace then collapseSpacesGo rest true
      else ' ' :: collapseSpacesGo rest true
    else c :: collapseSpacesGo rest false

/-- `cleanHBLDescription` (part_005 lines 178-196): delete the transaction
date everywhere, strip a leading second date, strip up to three trailing
amount columns, delete 16-plus-digit card numbers, collapse whitespace, and
fall back to `'Transaction'` when nothing is left. -/
def cleanHBLDescription (fullText dateStr : String) : String :=
  let c1 := jsTrim (String.mk (removeAllSub dateStr.data fullText.data))
  let c2 := jsTrim (String.mk (stripLeadingHblDate c1.data))
  let c3 := stripTrailingAmounts 3 c2.data
  let c4 := stripTrailingAmounts 2 c3
  let c5 := stripTrailingAmounts 1 c4
  let c6 := removeLongDigitRuns c5
  let c7 := jsTrim (String.mk (collapseSpacesGo c6 false))
  if c7 = "" then "Transaction" else c7

/-- The `(debit, credit)` pair assigned by `parseHBLTransaction`'s amount
branch: both stay 0 without an amount match; otherwise the amount goes to
credit when one of the inflow keywords occurs in the lower-cased joined
block, else to debit. -/
def hblDebitCredit (firstLine : String) (lines : List String) : JsNum × JsNum :=
  match hblAmountMatch firstLine.data with
  | none => (JsNum.zero, JsNum.zero)
  | some (ipart, fpart) =>
    let amount := hblParseAmount ipart fpart
    let fullLower := jsToLower (String.intercalate " " lines)
    if strHasSub fullLower " fr " || strHasSub fullLower " from " ||
       strHasSub fullLower "transfer fr" || strHasSub fullLower "received"
    then (JsNum.zero, amount)
    else (amount, JsNum.zero)

/-- `parseHBLTransaction` (part_005 lines 120-176): date prefix from the
first line, amount and balance from the first line only, debit-vs-credit by
keyword search over the lower-cased joined block, description from the
cleaned joined block; `null` when the description is empty or both sides
are zero. -/
def parseHBLTransaction (lines : List String) : Option ParsedTransaction :=
  match lines with
  | [] => none
  | firstLine :: _ =>
    match hblDateMatch firstLine.data with
    | none => none
    | some dateCs =>
      let dateStr := String.mk dateCs
      let parts := jsSplitChar '-' dateStr
      let isoDate := parts.getD 2 "" ++ "-" ++ parts.getD 1 "" ++ "-" ++ parts.getD 0 ""
      let dc := hblDebitCredit firstLine lines
      let description := cleanHBLDescription (String.intercalate " " lines) dateStr
      if description = "" ∨ (dc.1 = JsNum.zero ∧ dc.2 = JsNum.zero) then none
      else some
        { originalDate := dateStr
          date := isoDate
          debit := dc.1
          credit := dc.2
          description := description }

/-- `processCurrentTransaction`: flush a non-empty block through
`parseHBLTransaction` and push the result when non-null. -/
def processCurrentTransaction (current : List String) (acc : List ParsedTransaction) :
    List ParsedTransaction :=
  match current with
  | [] => acc
  | _ :: _ =>
    match parseHBLTransaction current with
    | some t => acc ++ [t]
    | none => acc

/-- The line loop of `parseHBLText`: any line containing `Transaction`
(re)enters the section and is itself skipped; header lines inside the
section are skipped; a blank line flushes the current block; inside the
section a date-prefixed line flushes and starts a new block and other lines
extend a non-empty block. -/
def parseHBLGo : List String → Bool → List String → List ParsedTransaction →
    List ParsedTransaction
  | [], _, current, acc => processCurrentTransaction current acc
  | line :: rest, inSection, current, acc =>
    let trimmedLine := jsTrim line
    if strHasSub trimmedLine "Transaction" then
      parseHBLGo rest true current acc
    else if inSection &&
        (strHasSub trimmedLine "Date" && strHasSub trimmedLine "Description" &&
         strHasSub trimmedLine "Debit" && strHasSub trimmedLine "Credit" &&
         strHasSub trimmedLine "Balance") then
      parseHBLGo rest inSection current acc
    else if trimmedLine == "" then
      parseHBLGo rest inSection [] (processCurrentTransaction current acc)
    else if inSection then
      if hblDateLineTest trimmedLine then
        parseHBLGo rest inSection [trimmedLine] (processCurrentTransaction current acc)
      else if !current.isEmpty then
        parseHBLGo rest inSection (current ++ [trimmedLine]) acc
      else
        parseHBLGo rest inSection current acc
    else
      parseHBLGo rest inSection current acc

/-- `parseHBLText` (part_005 lines 63-97). -/
def parseHBLText (text : String) : List ParsedTransaction :=
  parseHBLGo (jsSplitChar '\n' text) false [] []

/- ═══════════════ Validation (part_003 lines 531-562) ═══════════════ -/

/-- The strict ISO date test `/^\d{4}-\d{2}-\d{2}$/`.  (The source's extra
`!t.date` disjunct only adds the empty string, which this regex rejects
anyway.) -/
def isValidIsoDate (s : String) : Bool :=
  match s.data with
  | [y1, y2, y3, y4, h1, m1, m2, h2, d1, d2] =>
    y1.isDigit && y2.isDigit && y3.isDigit && y4.isDigit && h1 == '-' &&
      m1.isDigit && m2.isDigit && h2 == '-' && d1.isDigit && d2.isDigit
  | _ => false

/-- The single warning the source can push: the high-transaction-count note
for lists longer than 1000. -/
def highCountWarning (n : Nat) : List String :=
  if 1000 < n then ["High transaction count: " ++ toString n ++ " transactions found."]
  else []

/-- `validateTransactions`: throw on an empty list; push the count warning
above 1000; count rows whose date fails the strict ISO test and throw when
they exceed half the list (`invalidCount > length * 0.5` — `length * 0.5`
is exact in binary floating point, so the comparison is
`length < 2 * invalidCount`); otherwise return `{valid: true, warnings}`. -/
def validateTransactions (transactions : List ParsedTransaction) (bankName : String) :
    Except JsError (Bool × List String) :=
  if transactions.length = 0 then .error (.noTransactions bankName)
  else
    let warnings := highCountWarning transactions.length
    let invalidCount := transactions.countP (fun t => !(isValidIsoDate t.date))
    if transactions.length < 2 * invalidCount then
      .error (.tooManyInvalid invalidCount transactions.length)
    else .ok (true, warnings)

/- ═══════════════ Import-format conversion (part_003 lines 702-710) ═══════════════ -/

/-- `convertToImportFormat`: `amount = debit > 0 ? debit : credit`,
`type = debit > 0 ? 'expense' : 'income'`, description defaulted when
falsy, category unset. -/
def convertToImportFormat (transactions : List ParsedTransaction) : List ImportTransaction :=
  transactions.map (fun t =>
    { date := t.date
      amount := if JsNum.lt JsNum.zero t.debit then t.debit else t.credit
      type := if JsNum.lt JsNum.zero t.debit then TxType.expense else TxType.income
      description := if t.description == "" then "Imported from PDF" else t.description
      category_id := none })

/-- The reconstruction recipe stated by claim C3 (this follows the claim's
words, not the source): debit is the amount when the type is `expense`,
otherwise 0. -/
def reconstructDebit (i : ImportTransaction) : JsNum :=
  if i.type = TxType.expense then i.amount else JsNum.zero

/-- The reconstruction recipe stated by claim C3: credit is the amount when
the type is `income`, otherwise 0. -/
def reconstructCredit (i : ImportTransaction) : JsNum :=
  if i.type = TxType.income then i.amount else JsNum.zero

/- ═══════════════ Bank detection (part_003 lines 142-164) ═══════════════ -/

/-- The NayaPay fingerprint list. -/
def nayapayIndicators : List String :=
  ["nayapay", "NayaPay", "NAYAPAY", "(021) 111-222-729", "www.nayapay.com",
   "support@nayapay.com", "TIME TYPE DESCRIPTION", "AMOUNT BALANCE"]

/-- `detectNayaPay`: count the indicators found case-sensitively in the
text or case-insensitively in its lower-cased copy; at least two must hit. -/
def detectNayaPay (pdfText : String) : Bool :=
  let lowerText := jsToLower pdfText
  decide (2 ≤ nayapayIndicators.countP
    (fun ind => strHasSub pdfText ind || strHasSub lowerText (jsToLower ind)))

/- ═══════════════ Groq cleaner (groqCleaner.ts) and its caller ═══════════════ -/

/-- What the remote call produced, as seen by the code after
`await response.json()`: the fetch itself, `JSON.parse` and the
`/\[[\s\S]*\]/` extraction happen outside the shallow embedding, so this
type enumerates the outcomes the source branches on
(groqCleaner.ts lines 104-124). -/
inductive GroqResponseModel
  | missingContent
  | noJsonMatch
  | notAnArray
  | arrayOf (xs : List String)
deriving DecidableEq

/-- `cleanDescriptionsWithGroq` after the transport boundary: empty input
returns `[]` before anything else; then missing content, unparsable
content, non-array JSON and a length mismatch each throw, and the
try/catch wraps every thrown error in a `Groq API Error:` wrapper
(`JsError.groqApi`). -/
def cleanDescriptionsWithGroq (descriptions : List String) (response : GroqResponseModel) :
    Except JsError (List String) :=
  if descriptions.length = 0 then .ok []
  else
    match response with
    | .missingContent => .error (.groqApi .groqMissingContent)
    | .noJsonMatch => .error (.groqApi .groqNoJsonMatch)
    | .notAnArray => .error (.groqApi .groqNotArray)
    | .arrayOf xs =>
      if xs.length ≠ descriptions.length then
        .error (.groqApi (.groqLengthMismatch xs.length descriptions.length))
      else .ok xs

/-- `PreviewTransaction` from ImportTransactions.tsx: an
`ImportTransaction` plus selection state and the pre-enhancement
description. -/
structure PreviewTransaction where
  date : String
  amount : JsNum
  type : TxType
  description : String
  category_id : Option String
  id : String
  selected : Bool
  originalDescription : String
deriving DecidableEq

/-- `cleanDescriptionsWithAI` (ImportTransactions.tsx lines 51-74): send
the original descriptions; on success overwrite each description with the
cleaned one unless that one is falsy; on any error return the transactions
unchanged. -/
def cleanDescriptionsWithAI (transactions : List PreviewTransaction)
    (response : GroqResponseModel) : List PreviewTransaction :=
  match cleanDescriptionsWithGroq (transactions.map (fun t => t.originalDescription)) response with
  | .error _ => transactions
  | .ok cleaned =>
    transactions.mapIdx (fun index t =>
      { t with description :=
          if cleaned.getD index "" == "" then t.description else cleaned.getD index "" })

/- ═══════════════ Concrete inputs used by the claims ═══════════════ -/

/-- The spec's end-to-end NayaPay example block (claim C1). -/
def netflixBlock : List String :=
  ["12 Jan 2025", "Paid to NETFLIX.COM Singapore SG", "-Rs. 1,500"]

/-- A NayaPay block carrying a `Fees and Government Taxes` line (claim C7). -/
def feeBlock : List String :=
  ["12 Jan 2025", "Fees and Government Taxes Rs. 5", "-Rs. 100"]

/-- A NayaPay block whose date line carries a year outside 2020-2029
(claim C10). -/
def year2019Block : List String :=
  ["12 Jan 2019", "Paid to UBER", "-Rs. 500"]

/-- A CSV input whose single data row has debit 0 and credit 0 (claim C2). -/
def zeroRowCsv : String :=
  "Date,Debit,Credit,Description\n2024-01-01,0,0,Zero row"

/-- The spec's CSV example row, with the description field wrapped in
double quotes (claim C8). -/
def quotedCsv : String :=
  "Date,Debit,Credit,Description\n15-03-2024,0,2500,\"Salary payment\""

/-- A minimal HBL statement text containing one debit transaction. -/
def hblSampleText : String :=
  "Transaction\n01-02-2024 02-02-2024 POS merchant 1,500.00 10,000.00"

/-- The transaction `parseHBLText` extracts from `hblSampleText`. -/
def hblSampleTxn : ParsedTransaction :=
  { date := "2024-02-01"
    debit := JsNum.ofInt 1500
    credit := JsNum.zero
    description := "POS merchant"
    originalDate := "01-02-2024" }

/-- A row with a valid strict-ISO date. -/
def goodRow : ParsedTransaction :=
  { date := "2025-01-12", debit := JsNum.ofInt 100, credit := JsNum.zero
    description := "ok", originalDate := "12 Jan 2025" }

/-- A row whose date fails the strict ISO test. -/
def badRow : ParsedTransaction :=
  { date := "12 Jan 2025", debit := JsNum.ofInt 100, credit := JsNum.zero
    description := "bad", originalDate := "12 Jan 2025" }

/-- Ten rows, six of them with unparseable dates (claim C4). -/
def tenRows6Bad : List ParsedTransaction :=
  [badRow, badRow, badRow, badRow, badRow, badRow, goodRow, goodRow, goodRow, goodRow]

/-- Ten rows, four of them with unparseable dates (claim C4). -/
def tenRows4Bad : List ParsedTransaction :=
  [badRow, badRow, badRow, badRow, goodRow, goodRow, goodRow, goodRow, goodRow, goodRow]

/-- The spec's CSV example row as a `ParsedTransaction` satisfying the
parser invariant (used to witness claim C3). -/
def salaryTxn : ParsedTransaction :=
  { date := "2024-03-15", debit := JsNum.zero, credit := JsNum.ofInt 2500
    description := "Salary payment", originalDate := "15-03-2024" }

/-- A transaction with both sides positive (claim C3's counterexample). -/
def bothSidesTxn : ParsedTransaction :=
  { date := "2024-01-01", debit := JsNum.ofInt 5, credit := JsNum.ofInt 10
    description := "Both sides", originalDate := "01-01-2024" }

/-- The `ImportTransaction` that `convertToImportFormat` produces from
`bothSidesTxn`. -/
def bothSidesOut : ImportTransaction :=
  { date := "2024-01-01", amount := JsNum.ofInt 5, type := TxType.expense
    description := "Both sides", category_id := none }

/-- Helper to build preview rows for the claim C6 witness. -/
def previewRow (n : String) : PreviewTransaction :=
  { date := "2024-01-01", amount := JsNum.ofInt 10, type := TxType.expense
    description := n, category_id := none, id := n, selected := true
    originalDescription := n }

/-- Three preview transactions awaiting enhancement (claim C6). -/
def previewSample : List PreviewTransaction :=
  [previewRow "a", previewRow "b", previewRow "c"]

/- ═══════════════ Helper lemmas ═══════════════ -/

theorem JsNum.mant_eq_zero_iff (a : JsNum) : a.mant = 0 ↔ a = JsNum.zero := by
  constructor
  · intro h
    have he : a.exp = 0 := by
      by_contra hne
      exact a.isNorm hne (by omega)
    cases a with
    | mk m e p =>
      simp only at h he
      subst h; subst he; rfl
  · intro h; rw [h]; rfl

theorem JsNum.normAux_mant_nonneg (e : Nat) (m : Int) (h : 0 ≤ m) :
    0 ≤ (JsNum.normAux m e).mant := by
  induction e generalizing m with
  | zero => simpa [JsNum.normAux] using h
  | succ e ih =>
    unfold JsNum.normAux
    split
    · exact ih _ (Int.ediv_nonneg h (by norm_num))
    · simpa using h

theorem hblParseAmount_mant_nonneg (i f : List Char) : 0 ≤ (hblParseAmount i f).mant := by
  unfold hblParseAmount JsNum.ofDecimalDigits
  apply JsNum.normAux_mant_nonneg
  positivity

theorem JsNum.lt_zero_self : ¬ JsNum.lt JsNum.zero JsNum.zero := by
  simp [JsNum.lt, JsNum.zero]

theorem JsNum.zero_lt_iff (a : JsNum) : JsNum.lt JsNum.zero a ↔ 0 < a.mant := by
  simp [JsNum.lt, JsNum.zero]

theorem JsNum.zero_le_iff (a : JsNum) : JsNum.le JsNum.zero a ↔ 0 ≤ a.mant := by
  simp [JsNum.le, JsNum.zero]

theorem JsNum.le_zero_iff (a : JsNum) : JsNum.le a JsNum.zero ↔ a.mant ≤ 0 := by
  simp [JsNum.le, JsNum.zero]

theorem JsNum.eq_zero_of_nonneg_not_pos (a : JsNum) (h1 : JsNum.le JsNum.zero a)
    (h2 : ¬ JsNum.lt JsNum.zero a) : a = JsNum.zero := by
  rw [JsNum.zero_le_iff] at h1
  rw [JsNum.zero_lt_iff] at h2
  exact (JsNum.mant_eq_zero_iff a).mp (by omega)

theorem extractFee_ok (lines : List String) (v : JsNum)
    (h : extractFee lines = Except.ok v) : v = JsNum.zero := by
  induction lines with
  | nil =>
    simp only [extractFee] at h
    exact (Except.ok.inj h).symm
  | cons line rest ih =>
    by_cases hc : lineHasFee line.data
    · simp [extractFee, hc] at h
    · simp only [extractFee, hc, Bool.false_eq_true, if_false] at h
      exact ih h

theorem extractAmount_ok (lines : List String) (v : JsNum)
    (h : extractAmount lines = Except.ok v) : v = JsNum.zero := by
  induction lines with
  | nil =>
    simp only [extractAmount] at h
    exact (Except.ok.inj h).symm
  | cons line rest ih =>
    by_cases hc : lineHasAmount line.data
    · simp [extractAmount, hc] at h
    · simp only [extractAmount, hc, Bool.false_eq_true, if_false] at h
      exact ih h

theorem parseNayaPayTransaction_ok (lines : List String) (o : Option ParsedTransaction)
    (h : parseNayaPayTransaction lines = Except.ok o) : o = none := by
  unfold parseNayaPayTransaction at h
  cases hf : extractFee lines with
  | error e => rw [hf] at h; cases h
  | ok f =>
    rw [hf] at h
    cases ha : extractAmount lines with
    | error e => rw [ha] at h; cases h
    | ok a =>
      rw [ha] at h
      cases hb : buildDescription lines with
      | error e => rw [hb] at h; cases h
      | ok raw =>
        rw [hb] at h
        have hf0 := extractFee_ok lines f hf
        have ha0 := extractAmount_ok lines a ha
        subst hf0; subst ha0
        dsimp only at h
        have hcond : ¬ (JsNum.lt JsNum.zero JsNum.zero ∧ JsNum.lt JsNum.zero JsNum.zero) :=
          fun hand => JsNum.lt_zero_self hand.1
        simp only [if_neg hcond] at h
        have hcond2 : ¬ (extractDate lines ≠ "" ∧ JsNum.zero ≠ JsNum.zero) :=
          fun hand => hand.2 rfl
        simp only [if_neg hcond2] at h
        exact (Except.ok.inj h).symm

theorem hblDebitCredit_cases (firstLine : String) (lines : List String) :
    hblDebitCredit firstLine lines = (JsNum.zero, JsNum.zero) ∨
    ∃ a : JsNum, 0 ≤ a.mant ∧
      (hblDebitCredit firstLine lines = (a, JsNum.zero) ∨
       hblDebitCredit firstLine lines = (JsNum.zero, a)) := by
  unfold hblDebitCredit
  cases hblAmountMatch firstLine.data with
  | none => exact Or.inl rfl
  | some p =>
    obtain ⟨ipart, fpart⟩ := p
    refine Or.inr ⟨hblParseAmount ipart fpart, hblParseAmount_mant_nonneg _ _, ?_⟩
    dsimp only
    split
    · exact Or.inr rfl
    · exact Or.inl rfl

theorem parseHBLTransaction_inv (lines : List String) (t : ParsedTransaction)
    (h : parseHBLTransaction lines = some t) :
    JsNum.le JsNum.zero t.debit ∧ JsNum.le JsNum.zero t.credit ∧
      ((JsNum.lt JsNum.zero t.debit ∧ t.credit = JsNum.zero) ∨
       (t.debit = JsNum.zero ∧ JsNum.lt JsNum.zero t.credit)) := by
  cases lines with
  | nil => simp [parseHBLTransaction] at h
  | cons firstLine rest =>
    unfold parseHBLTransaction at h
    dsimp only at h
    cases hd : hblDateMatch firstLine.data with
    | none => rw [hd] at h; cases h
    | some dateCs =>
      rw [hd] at h
      dsimp only at h
      rcases hblDebitCredit_cases firstLine (firstLine :: rest) with hz | ⟨a, ha, hca | hca⟩
      · rw [hz] at h
        simp at h
      · rw [hca] at h
        dsimp only at h
        split_ifs at h with hcond
        obtain rfl := Option.some.inj h
        have hane : a ≠ JsNum.zero := fun e => hcond (Or.inr ⟨e, rfl⟩)
        have hmant : 0 < a.mant := by
          rcases lt_or_eq_of_le ha with hgt | heq
          · exact hgt
          · exact absurd ((JsNum.mant_eq_zero_iff a).mp heq.symm) hane
        exact ⟨(JsNum.zero_le_iff a).mpr ha, (JsNum.zero_le_iff JsNum.zero).mpr le_rfl,
          Or.inl ⟨(JsNum.zero_lt_iff a).mpr hmant, rfl⟩⟩
      · rw [hca] at h
        dsimp only at h
        split_ifs at h with hcond
        obtain rfl := Option.some.inj h
        have hane : a ≠ JsNum.zero := fun e => hcond (Or.inr ⟨rfl, e⟩)
        have hmant : 0 < a.mant := by
          rcases lt_or_eq_of_le ha with hgt | heq
          · exact hgt
          · exact absurd ((JsNum.mant_eq_zero_iff a).mp heq.symm) hane
        exact ⟨(JsNum.zero_le_iff JsNum.zero).mpr le_rfl, (JsNum.zero_le_iff a).mpr ha,
          Or.inr ⟨rfl, (JsNum.zero_lt_iff a).mpr hmant⟩⟩

theorem mem_processCurrentTransaction (current : List String)
    (acc : List ParsedTransaction) (t : ParsedTransaction)
    (h : t ∈ processCurrentTransaction current acc) :
    t ∈ acc ∨ parseHBLTransaction current = some t := by
  cases current with
  | nil => exact Or.inl h
  | cons a b =>
    unfold processCurrentTransaction at h
    cases hp : parseHBLTransaction (a :: b) with
    | none => rw [hp] at h; exact Or.inl h
    | some u =>
      rw [hp] at h
      rcases List.mem_append.mp h with h1 | h2
      · exact Or.inl h1
      · have ht : t = u := List.mem_singleton.mp h2
        subst ht
        exact Or.inr rfl

theorem mem_parseHBLGo (lines : List String) :
    ∀ (inSection : Bool) (current : List String) (acc : List ParsedTransaction)
      (t : ParsedTransaction), t ∈ parseHBLGo lines inSection current acc →
      t ∈ acc ∨ ∃ ls, parseHBLTransaction ls = some t := by
  induction lines with
  | nil =>
    intro b cur acc t h
    unfold parseHBLGo at h
    rcases mem_processCurrentTransaction cur acc t h with h1 | h2
    · exact Or.inl h1
    · exact Or.inr ⟨cur, h2⟩
  | cons line rest ih =>
    intro b cur acc t h
    have flushed : ∀ (b2 : Bool) (cur2 : List String),
        t ∈ parseHBLGo rest b2 cur2 (processCurrentTransaction cur acc) →
        t ∈ acc ∨ ∃ ls, parseHBLTransaction ls = some t := by
      intro b2 cur2 hh
      rcases ih b2 cur2 _ t hh with h1 | h2
      · rcases mem_processCurrentTransaction cur acc t h1 with ha | hb
        · exact Or.inl ha
        · exact Or.inr ⟨cur, hb⟩
      · exact Or.inr h2
    unfold parseHBLGo at h
    dsimp only at h
    split at h
    · exact ih _ _ _ _ h
    · split at h
      · exact ih _ _ _ _ h
      · split at h
        · exact flushed _ _ h
        · split at h
          · split at h
            · exact flushed _ _ h
            · split at h
              · exact ih _ _ _ _ h
              · exact ih _ _ _ _ h
          · exact ih _ _ _ _ h

theorem parseHBLText_mem (text : String) (t : ParsedTransaction)
    (h : t ∈ parseHBLText text) : ∃ ls, parseHBLTransaction ls = some t := by
  unfold parseHBLText at h
  rcases mem_parseHBLGo _ _ _ _ _ h with h1 | h2
  · cases h1
  · exact h2

theorem parseCSVRows_error (rows : List String) (r : String) (h1 : r ∈ rows)
    (h2 : 3 ≤ (jsSplitChar ',' r).length) :
    parseCSVRows rows = Except.error JsError.replaceAllNonGlobal := by
  induction rows with
  | nil => cases h1
  | cons a b ih =>
    unfold parseCSVRows
    by_cases hc : 3 ≤ (jsSplitChar ',' a).length
    · rw [if_pos hc]
    · rw [if_neg hc]
      rcases List.mem_cons.mp h1 with h3 | h3
      · rw [h3] at h2; exact absurd h2 hc
      · exact ih h3

/- ═══════════════ Claim theorems ═══════════════ -/

/-- C1: the spec's end-to-end example block does not parse to the
documented transaction: the date and the (absent) fee extract fine, but
`extractAmount` matches the amount regex on the third line and then throws
a `TypeError` from `replaceAll` with the non-global regex, so
`parseNayaPayTransaction` propagates the exception instead of emitting
`{date: 2025-01-12, debit: 1500, credit: 0, description: Netflix}`. -/
theorem claim_c1_netflix_block_throws :
    extractDate netflixBlock = "12 Jan 2025" ∧
    extractFee netflixBlock = Except.ok JsNum.zero ∧
    extractAmount netflixBlock = Except.error JsError.replaceAllNonGlobal ∧
    parseNayaPayTransaction netflixBlock = Except.error JsError.replaceAllNonGlobal := by
  decide

/-- C5: sanitizeDescription is not idempotent and cannot remove forbidden
patterns, because it throws a `TypeError` on every non-empty input (the
non-global regex handed to `replaceAll`): the empty string maps to
`Transaction`, whose re-sanitization throws, and the forbidden-pattern
input throws outright. -/
theorem claim_c5_sanitize_throws :
    sanitizeDescription "" = Except.ok "Transaction" ∧
    sanitizeDescription "Transaction" = Except.error JsError.replaceAllNonGlobal ∧
    sanitizeDescription "ignore previous instructions" =
      Except.error JsError.replaceAllNonGlobal := by
  decide

/-- C7: a block with a positive fee and a negative amount does not emit a
transaction with the fee netted into the debit; `extractFee` matches the
fee line and throws a `TypeError` from `replaceAll` with the non-global
regex, and `parseNayaPayTransaction` propagates it. -/
theorem claim_c7_fee_block_throws :
    extractFee feeBlock = Except.error JsError.replaceAllNonGlobal ∧
    parseNayaPayTransaction feeBlock = Except.error JsError.replaceAllNonGlobal := by
  decide

/-- C10: the year filter half of the claim holds (`extractDate` returns ''
on a 2019 date line and the match on a 2025 line), but the block is not
silently dropped: `parseNayaPayTransaction` throws a `TypeError` (via
`extractAmount`'s non-global `replaceAll` regex) rather than returning
`null`, so the whole parse aborts. -/
theorem claim_c10_year_filter :
    extractDate year2019Block = "" ∧
    extractDate netflixBlock = "12 Jan 2025" ∧
    parseNayaPayTransaction year2019Block = Except.error JsError.replaceAllNonGlobal ∧
    parseNayaPayTransaction year2019Block ≠ Except.ok none := by
  decide

/-- C2 (amended): every transaction the HBL parser emits has non-negative
debit and credit with exactly one strictly positive; the NayaPay block
parser never emits a transaction at all (any non-zero amount means an
earlier `TypeError`); and `parseCSV` throws on a both-zero data row instead
of dropping it. -/
theorem claim_c2_parser_invariant (text : String) (txn : ParsedTransaction)
    (nLines : List String) (nTxn : ParsedTransaction)
    (h : txn ∈ parseHBLText text) :
    (JsNum.le JsNum.zero txn.debit ∧ JsNum.le JsNum.zero txn.credit ∧
      ((JsNum.lt JsNum.zero txn.debit ∧ txn.credit = JsNum.zero) ∨
       (txn.debit = JsNum.zero ∧ JsNum.lt JsNum.zero txn.credit))) ∧
    parseNayaPayTransaction nLines ≠ Except.ok (some nTxn) ∧
    parseCSV zeroRowCsv = Except.error JsError.replaceAllNonGlobal := by
  obtain ⟨ls, hls⟩ := parseHBLText_mem text txn h
  refine ⟨parseHBLTransaction_inv ls txn hls, ?_, by decide⟩
  intro he
  exact Option.noConfusion (parseNayaPayTransaction_ok nLines (some nTxn) he)

/-- Witness for C2: the sample HBL statement emits a transaction satisfying
the invariant. -/
theorem claim_c2_parser_invariant_witness :
    (hblSampleTxn ∈ parseHBLText hblSampleText) ∧
    ((JsNum.le JsNum.zero hblSampleTxn.debit ∧ JsNum.le JsNum.zero hblSampleTxn.credit ∧
      ((JsNum.lt JsNum.zero hblSampleTxn.debit ∧ hblSampleTxn.credit = JsNum.zero) ∨
       (hblSampleTxn.debit = JsNum.zero ∧ JsNum.lt JsNum.zero hblSampleTxn.credit))) ∧
     parseNayaPayTransaction ["5 May 2025", "-Rs. 50"] ≠ Except.ok (some hblSampleTxn) ∧
     parseCSV zeroRowCsv = Except.error JsError.replaceAllNonGlobal) :=
  ⟨by decide, claim_c2_parser_invariant hblSampleText hblSampleTxn
    ["5 May 2025", "-Rs. 50"] hblSampleTxn (by decide)⟩

/-- Counterexample for C2: the CSV parser does not drop the both-zero row
with an otherwise intact output list — it throws, so there is no output at
all. -/
theorem claim_c2_csv_zero_row_counterexample :
    parseCSV zeroRowCsv = Except.error JsError.replaceAllNonGlobal ∧
    parseCSV zeroRowCsv ≠ Except.ok [] := by
  decide

/-- C3 (amended): on transactions satisfying the parser invariant
(non-negative sides, at most one non-zero), `convertToImportFormat` does
produce `amount = max(debit, credit)`, `type = expense iff debit > 0`, and
the claim's reconstruction recipe recovers debit and credit exactly. -/
theorem claim_c3_roundtrip (t : ParsedTransaction)
    (h1 : JsNum.le JsNum.zero t.debit) (h2 : JsNum.le JsNum.zero t.credit)
    (h3 : t.debit = JsNum.zero ∨ t.credit = JsNum.zero) :
    ∃ i, convertToImportFormat [t] = [i] ∧
      i.amount = JsNum.max t.debit t.credit ∧
      (i.type = TxType.expense ↔ JsNum.lt JsNum.zero t.debit) ∧
      reconstructDebit i = t.debit ∧ reconstructCredit i = t.credit := by
  by_cases hd : JsNum.lt JsNum.zero t.debit
  · have hcz : t.credit = JsNum.zero := by
      rcases h3 with h3 | h3
      · rw [h3] at hd; exact absurd hd JsNum.lt_zero_self
      · exact h3
    have hnle : ¬ JsNum.le t.debit JsNum.zero := by
      rw [JsNum.le_zero_iff]
      rw [JsNum.zero_lt_iff] at hd
      omega
    refine ⟨_, rfl, ?_, ?_, ?_, ?_⟩
    · show (if JsNum.lt JsNum.zero t.debit then t.debit else t.credit) =
        JsNum.max t.debit t.credit
      rw [if_pos hd, hcz]
      unfold JsNum.max
      rw [if_neg hnle]
    · show (if JsNum.lt JsNum.zero t.debit then TxType.expense else TxType.income) =
        TxType.expense ↔ JsNum.lt JsNum.zero t.debit
      rw [if_pos hd]
      exact ⟨fun _ => hd, fun _ => rfl⟩
    · show reconstructDebit _ = t.debit
      unfold reconstructDebit
      dsimp only
      rw [if_pos hd]
      rw [if_pos rfl]
      exact if_pos hd
    · show reconstructCredit _ = t.credit
      unfold reconstructCredit
      dsimp only
      rw [if_pos hd, hcz]
      rw [if_neg (by decide : ¬ (TxType.expense = TxType.income))]
  · have hdz : t.debit = JsNum.zero := JsNum.eq_zero_of_nonneg_not_pos _ h1 hd
    refine ⟨_, rfl, ?_, ?_, ?_, ?_⟩
    · show (if JsNum.lt JsNum.zero t.debit then t.debit else t.credit) =
        JsNum.max t.debit t.credit
      rw [if_neg hd, hdz]
      unfold JsNum.max
      rw [if_pos ((JsNum.zero_le_iff t.credit).mpr ((JsNum.zero_le_iff t.credit).mp h2))]
    · show (if JsNum.lt JsNum.zero t.debit then TxType.expense else TxType.income) =
        TxType.expense ↔ JsNum.lt JsNum.zero t.debit
      rw [if_neg hd]
      exact ⟨fun e => absurd e (by decide), fun e => absurd e hd⟩
    · show reconstructDebit _ = t.debit
      unfold reconstructDebit
      dsimp only
      rw [if_neg hd, hdz]
      rw [if_neg (by decide : ¬ (TxType.income = TxType.expense))]
    · show reconstructCredit _ = t.credit
      unfold reconstructCredit
      dsimp only
      rw [if_neg hd]
      rw [if_pos rfl]
      exact if_neg hd

/-- Witness for C3: the spec's CSV example row round-trips. -/
theorem claim_c3_roundtrip_witness :
    (JsNum.le JsNum.zero salaryTxn.debit ∧ JsNum.le JsNum.zero salaryTxn.credit ∧
      (salaryTxn.debit = JsNum.zero ∨ salaryTxn.credit = JsNum.zero)) ∧
    (∃ i, convertToImportFormat [salaryTxn] = [i] ∧
      i.amount = JsNum.max salaryTxn.debit salaryTxn.credit ∧
      (i.type = TxType.expense ↔ JsNum.lt JsNum.zero salaryTxn.debit) ∧
      reconstructDebit i = salaryTxn.debit ∧ reconstructCredit i = salaryTxn.credit) :=
  ⟨⟨by decide, by decide, by decide⟩,
   claim_c3_roundtrip salaryTxn (by decide) (by decide) (by decide)⟩

/-- Counterexample for C3: on a transaction with both sides positive the
produced amount is the debit, not the maximum, and the reconstruction loses
the credit. -/
theorem claim_c3_counterexample :
    convertToImportFormat [bothSidesTxn] = [bothSidesOut] ∧
    bothSidesOut.amount ≠ JsNum.max bothSidesTxn.debit bothSidesTxn.credit ∧
    reconstructCredit bothSidesOut ≠ bothSidesTxn.credit := by
  decide

/-- C4 (amended): `validateTransactions` fails with the too-many-invalid
error exactly when the strict-ISO failures exceed half the list (the 10-row
6-bad list throws with counts 6 of 10), and at or below half it succeeds —
with a warnings list that never mentions the invalid rows (it only ever
holds the above-1000 count note). -/
theorem claim_c4_threshold (ts : List ParsedTransaction) (bankName : String)
    (h : ts ≠ []) :
    ((∃ i n, validateTransactions ts bankName = Except.error (JsError.tooManyInvalid i n)) ↔
      ts.length < 2 * ts.countP (fun t => !(isValidIsoDate t.date))) ∧
    (2 * ts.countP (fun t => !(isValidIsoDate t.date)) ≤ ts.length →
      validateTransactions ts bankName = Except.ok (true, highCountWarning ts.length)) ∧
    validateTransactions tenRows6Bad "NayaPay" = Except.error (JsError.tooManyInvalid 6 10) := by
  have hlen : ¬ ts.length = 0 := by
    intro e
    exact h (List.length_eq_zero.mp e)
  refine ⟨⟨?_, ?_⟩, ?_, by decide⟩
  · rintro ⟨i, n, he⟩
    by_contra hle
    push_neg at hle
    unfold validateTransactions at he
    rw [if_neg hlen, if_neg (by omega)] at he
    cases he
  · intro hgt
    refine ⟨ts.countP (fun t => !(isValidIsoDate t.date)), ts.length, ?_⟩
    unfold validateTransactions
    rw [if_neg hlen, if_pos hgt]
  · intro hle
    unfold validateTransactions
    rw [if_neg hlen, if_neg (by omega)]

/-- Witness for C4: the 10-row 4-bad list is accepted. -/
theorem claim_c4_threshold_witness :
    (tenRows4Bad ≠ []) ∧
    (((∃ i n, validateTransactions tenRows4Bad "NayaPay" =
        Except.error (JsError.tooManyInvalid i n)) ↔
      tenRows4Bad.length < 2 * tenRows4Bad.countP (fun t => !(isValidIsoDate t.date))) ∧
    (2 * tenRows4Bad.countP (fun t => !(isValidIsoDate t.date)) ≤ tenRows4Bad.length →
      validateTransactions tenRows4Bad "NayaPay" =
        Except.ok (true, highCountWarning tenRows4Bad.length)) ∧
    validateTransactions tenRows6Bad "NayaPay" = Except.error (JsError.tooManyInvalid 6 10)) :=
  ⟨by decide, claim_c4_threshold tenRows4Bad "NayaPay" (by decide)⟩

/-- Counterexample for C4: with 4 invalid rows out of 10 the call succeeds
but the warnings list is empty — the invalid rows are not recorded as a
non-fatal warning anywhere. -/
theorem claim_c4_no_warning_counterexample :
    validateTransactions tenRows4Bad "NayaPay" = Except.ok (true, []) := by
  decide

/-- C6: when the decoded remote array's length differs from the number of
input descriptions, `cleanDescriptionsWithGroq` throws the mismatch error
(wrapped by its catch-all), and `cleanDescriptionsWithAI` returns every
transaction unchanged, keeping the pre-enhancement descriptions. -/
theorem claim_c6_length_mismatch (transactions : List PreviewTransaction)
    (xs : List String) (h1 : transactions ≠ []) (h2 : xs.length ≠ transactions.length) :
    cleanDescriptionsWithGroq (transactions.map (fun t => t.originalDescription))
        (GroqResponseModel.arrayOf xs) =
      Except.error (JsError.groqApi (JsError.groqLengthMismatch xs.length transactions.length)) ∧
    cleanDescriptionsWithAI transactions (GroqResponseModel.arrayOf xs) = transactions := by
  have hmap : (transactions.map (fun t => t.originalDescription)).length = transactions.length :=
    List.length_map _ _
  have hne : ¬ (transactions.map (fun t => t.originalDescription)).length = 0 := by
    rw [hmap]
    intro e
    exact h1 (List.length_eq_zero.mp e)
  have hg : cleanDescriptionsWithGroq (transactions.map (fun t => t.originalDescription))
      (GroqResponseModel.arrayOf xs) =
      Except.error (JsError.groqApi (JsError.groqLengthMismatch xs.length transactions.length)) := by
    unfold cleanDescriptionsWithGroq
    rw [if_neg hne]
    rw [hmap]
    dsimp only
    rw [if_pos h2]
  refine ⟨hg, ?_⟩
  unfold cleanDescriptionsWithAI
  rw [hg]

/-- Witness for C6: three transactions, a two-element mock response. -/
theorem claim_c6_length_mismatch_witness :
    (previewSample ≠ []) ∧ ((["x", "y"] : List String).length ≠ previewSample.length) ∧
    (cleanDescriptionsWithGroq (previewSample.map (fun t => t.originalDescription))
        (GroqResponseModel.arrayOf ["x", "y"]) =
      Except.error (JsError.groqApi (JsError.groqLengthMismatch 2 3)) ∧
    cleanDescriptionsWithAI previewSample (GroqResponseModel.arrayOf ["x", "y"]) =
      previewSample) :=
  ⟨by decide, by decide,
   claim_c6_length_mismatch previewSample ["x", "y"] (by decide) (by decide)⟩

/-- C8 (amended): any CSV data row with at least three comma-separated
fields — in particular every row whose trailing description field is
wrapped in double quotes — makes `parseCSVRows` throw the `replaceAll`
`TypeError` instead of returning a transaction with the quotes stripped. -/
theorem claim_c8_quoted_row_throws (rows : List String) (r : String)
    (h1 : r ∈ rows) (h2 : 3 ≤ (jsSplitChar ',' r).length) :
    parseCSVRows rows = Except.error JsError.replaceAllNonGlobal :=
  parseCSVRows_error rows r h1 h2

/-- Witness for C8: the spec's quoted salary row. -/
theorem claim_c8_quoted_row_throws_witness :
    ("15-03-2024,0,2500,\"Salary payment\"" ∈ ["15-03-2024,0,2500,\"Salary payment\""]) ∧
    3 ≤ (jsSplitChar ',' "15-03-2024,0,2500,\"Salary payment\"").length ∧
    parseCSVRows ["15-03-2024,0,2500,\"Salary payment\""] =
      Except.error JsError.replaceAllNonGlobal :=
  ⟨by decide, by decide,
   claim_c8_quoted_row_throws ["15-03-2024,0,2500,\"Salary payment\""]
     "15-03-2024,0,2500,\"Salary payment\"" (by decide) (by decide)⟩

/-- Counterexample for C8: on the spec's own CSV example with a quoted
description, `parseCSV` returns the `TypeError` — not the transaction with
the quotes stripped. -/
theorem claim_c8_counterexample :
    parseCSV quotedCsv = Except.error JsError.replaceAllNonGlobal ∧
    parseCSV quotedCsv ≠ Except.ok [salaryTxn] := by
  decide

/-- C9: any text containing the brand word in any letter case trips three
indicators at once (the three case variants all lower-case to the same
word), clearing the 2-of-8 threshold. -/
theorem claim_c9_brand_word (text : String)
    (h : strHasSub (jsToLower text) "nayapay" = true) :
    detectNayaPay text = true := by
  unfold detectNayaPay
  rw [decide_eq_true_iff]
  unfold nayapayIndicators
  have e1 : jsToLower "nayapay" = "nayapay" := by decide
  have e2 : jsToLower "NayaPay" = "nayapay" := by decide
  have e3 : jsToLower "NAYAPAY" = "nayapay" := by decide
  simp only [List.countP_cons, List.countP_nil, e1, e2, e3, h, Bool.or_true,
    eq_self_iff_true, if_true]
  split_ifs <;> omega

/-- Witness for C9: a text whose only NayaPay trace is an oddly cased
brand word. -/
theorem claim_c9_brand_word_witness :
    (strHasSub (jsToLower "Send via nAyApAy now") "nayapay" = true) ∧
    detectNayaPay "Send via nAyApAy now" = true :=
  ⟨by decide, claim_c9_brand_word "Send via nAyApAy now" (by decide)⟩
